import Mathlib

/-!
Verification of the devp2p core: the ECIES handshake / frame codec
(`src/es/rlpx/ecies.js`) and the DPT discovery server (`src/unnamed/part_000`).

Buffers are modelled as `List Nat` (one entry per byte).  Library crypto
primitives (secp256k1, SHA-256, Keccak-256, HMAC, AES keystreams) are
abstracted as fields of a `Crypto` structure together with the algebraic laws
the libraries guarantee (output lengths, ECDH commutativity, recover ∘ sign).
Everything the repository itself computes is translated from the source.
-/

namespace Devp2p

/-- `Buffer.slice(a, b)` on a byte list (non-negative indices). -/
def slice (l : List Nat) (a b : Nat) : List Nat := (l.drop a).take (b - a)

/-- Modelled from the spec: `util.xor` (missing from src) is bytewise XOR of
two equal-length buffers. -/
def xorL (a b : List Nat) : List Nat := List.zipWith Nat.xor a b

/-- Modelled from the spec: `util.zfill(buffer, size, left)` (missing from src)
zero-pads `b` to length `size`, on the left when `left = true`, otherwise on
the right; a buffer already at least `size` long is returned unchanged. -/
def zfill (b : List Nat) (size : Nat) (left : Bool) : List Nat :=
  if size ≤ b.length then b
  else if left then List.replicate (size - b.length) 0 ++ b
  else b ++ List.replicate (size - b.length) 0

/-- Minimal big-endian byte representation of a natural number (empty for 0). -/
def natToBytesBE (n : Nat) : List Nat :=
  if h : n = 0 then []
  else natToBytesBE (n / 256) ++ [n % 256]
decreasing_by exact Nat.div_lt_self (Nat.pos_of_ne_zero h) (by omega)

/-- `intToBuffer` from ethereumjs-util: minimal big-endian bytes. -/
def intToBuffer (n : Nat) : List Nat := natToBytesBE n

/-- `bufferToInt` from ethereumjs-util: big-endian interpretation. -/
def bufferToInt (l : List Nat) : Nat := l.foldl (fun a b => a * 256 + b) 0

/-- Modelled from the spec: `util.pk2id` (missing from src) strips the 0x04
prefix of an uncompressed public key. -/
def pk2id (pk : List Nat) : List Nat := pk.drop 1

/-- Modelled from the spec: `util.id2pk` (missing from src) prepends the 0x04
prefix to a 64-byte node id. -/
def id2pk (id : List Nat) : List Nat := 4 :: id

/-- `tmp.writeUInt32BE(counter)`: 4-byte big-endian encoding. -/
def be32 (n : Nat) : List Nat :=
  [n / 16777216 % 256, n / 65536 % 256, n / 256 % 256, n % 256]

/-- The library crypto primitives used by `ecies.js`, together with the laws
those libraries guarantee.  `ks128 key iv i` (resp. `ks256`) is the `i`-th
keystream byte of AES-128-CTR (resp. AES-256-CTR) under `(key, iv)`; a CTR
cipher object is XOR against this keystream at a running position. -/
structure Crypto where
  keccak256 : List Nat → List Nat
  sha256 : List Nat → List Nat
  hmacSha256 : List Nat → List Nat → List Nat
  publicKeyCreate : Nat → List Nat
  ecdhX : List Nat → Nat → List Nat
  sign : List Nat → Nat → List Nat × Nat
  recover : List Nat → List Nat → Nat → List Nat
  ks128 : List Nat → List Nat → Nat → Nat
  ks256 : List Nat → List Nat → Nat → Nat
  aesEcb : List Nat → List Nat → List Nat
  macKec : List Nat → List Nat → List Nat
  keccak256_len : ∀ m, (keccak256 m).length = 32
  sha256_len : ∀ m, (sha256 m).length = 32
  hmac_len : ∀ k m, (hmacSha256 k m).length = 32
  pub_len : ∀ k, (publicKeyCreate k).length = 65
  pub_head : ∀ k, (publicKeyCreate k).head? = some 4
  ecdh_comm : ∀ a b, ecdhX (publicKeyCreate a) b = ecdhX (publicKeyCreate b) a
  sign_len : ∀ m k, (sign m k).1.length = 64
  recover_sign : ∀ m k, recover m (sign m k).1 (sign m k).2 = publicKeyCreate k
  mac_len : ∀ s a, (macKec s a).length = 16

/-- XOR a byte list against the keystream `f` starting at position `i`
(the semantics of one `cipher.update` call of a CTR cipher). -/
def ctrXor (f : Nat → Nat) : Nat → List Nat → List Nat
  | _, [] => []
  | i, b :: rest => (b ^^^ f i) :: ctrXor f (i + 1) rest

/-- One-shot AES-128-CTR (`createCipheriv('aes-128-ctr', key, iv).update`). -/
def aes128 (C : Crypto) (key iv data : List Nat) : List Nat :=
  ctrXor (C.ks128 key iv) 0 data

/-- A long-lived AES-256-CTR cipher object: key, IV and keystream position. -/
structure Aes where
  key : List Nat
  iv : List Nat
  pos : Nat
deriving DecidableEq

/-- `aes.update(data)`: XOR against the keystream at the running position,
advancing the position by `data.length`. -/
def aesUpdate (C : Crypto) (a : Aes) (data : List Nat) : List Nat × Aes :=
  (ctrXor (C.ks256 a.key a.iv) a.pos data, { a with pos := a.pos + data.length })

/-- Modelled from the spec: the MAC chain of `mac.js` (missing from src) is a
Keccak-256 absorber; the state is the secret plus the absorbed transcript. -/
structure Mac where
  secret : List Nat
  absorbed : List Nat
deriving DecidableEq

/-- Modelled from the spec: `MAC.update` absorbs bytes. -/
def macUpdate (m : Mac) (d : List Nat) : Mac := { m with absorbed := m.absorbed ++ d }

/-- Modelled from the spec: `MAC.digest()` returns the first 16 bytes of the
sponge output without finalizing. -/
def macDigest (C : Crypto) (m : Mac) : List Nat := C.macKec m.secret m.absorbed

/-- Modelled from the spec: `MAC.updateHeader(enc)` absorbs
`AES-256-ECB(secret, digest) XOR enc`. -/
def macUpdateHeader (C : Crypto) (m : Mac) (h : List Nat) : Mac :=
  macUpdate m (xorL (C.aesEcb m.secret (macDigest C m)) h)

/-- Modelled from the spec: `MAC.updateBody(enc)` absorbs `enc`, then with
`seed = digest` absorbs `AES-256-ECB(secret, seed) XOR seed`. -/
def macUpdateBody (C : Crypto) (m : Mac) (b : List Nat) : Mac :=
  let m1 := macUpdate m b
  let seed := macDigest C m1
  macUpdate m1 (xorL (C.aesEcb m1.secret seed) seed)

/-- `concatKDF(keyMaterial, keyLength)` from `ecies.js`: the loop runs the
counter from 1 while `counter - 1 ≤ reps`, i.e. `reps + 1` rounds with
`reps = ((keyLength+7)*8) / (64*8)` (the JS float division and this Nat
division have the same floor for these operands). -/
def concatKDF (C : Crypto) (keyMaterial : List Nat) (keyLength : Nat) : List Nat :=
  let reps := ((keyLength + 7) * 8) / (64 * 8)
  (((List.range (reps + 1)).map
      (fun i => C.sha256 (be32 (i + 1) ++ keyMaterial))).flatten).take keyLength

/-- The per-connection state of the `ECIES` class (`ecies.js` constructor).
The `sharedSecret`, `aesSecret` and `macSecret` fields record the local
variables of `_setupFrame` so theorems can speak about the derived secrets;
the source keeps them only inside the AES/MAC objects. -/
structure EciesState where
  privateKey : Nat
  publicKey : List Nat
  remotePublicKey : Option (List Nat)
  nonce : List Nat
  remoteNonce : Option (List Nat)
  initMsg : Option (List Nat)
  remoteInitMsg : Option (List Nat)
  ingressAes : Option Aes
  egressAes : Option Aes
  ingressMac : Option Mac
  egressMac : Option Mac
  ephemeralPrivateKey : Nat
  ephemeralPublicKey : List Nat
  remoteEphemeralPublicKey : Option (List Nat)
  ephemeralSharedSecret : Option (List Nat)
  sharedSecret : Option (List Nat)
  aesSecret : Option (List Nat)
  macSecret : Option (List Nat)
  bodySize : Option Nat
deriving DecidableEq

/-- The `ECIES` constructor.  The i/o-supplied randomness (`this._nonce`) and
ephemeral private key are passed in explicitly. -/
def mkEcies (C : Crypto) (privateKey : Nat) (id : List Nat)
    (remoteId : Option (List Nat)) (nonce : List Nat) (ephemeralPrivateKey : Nat) :
    EciesState :=
  { privateKey := privateKey
    publicKey := id2pk id
    remotePublicKey := remoteId.map id2pk
    nonce := nonce
    remoteNonce := none
    initMsg := none
    remoteInitMsg := none
    ingressAes := none
    egressAes := none
    ingressMac := none
    egressMac := none
    ephemeralPrivateKey := ephemeralPrivateKey
    ephemeralPublicKey := C.publicKeyCreate ephemeralPrivateKey
    remoteEphemeralPublicKey := none
    ephemeralSharedSecret := none
    sharedSecret := none
    aesSecret := none
    macSecret := none
    bodySize := none }

/-- `ECIES._encryptMessage(data)`.  The fresh ephemeral private key `r` and
the random 16-byte `iv` are passed in explicitly; `remotePublicKey` is the
recipient key the method reads from `this`. -/
def encryptMessage (C : Crypto) (remotePublicKey : List Nat) (data : List Nat)
    (r : Nat) (iv : List Nat) : List Nat :=
  let x := C.ecdhX remotePublicKey r
  let key := concatKDF C x 32
  let ekey := key.take 16
  let mkey := C.sha256 (slice key 16 32)
  let encryptedData := aes128 C ekey iv data
  let dataIV := iv ++ encryptedData
  let tag := C.hmacSha256 mkey dataIV
  C.publicKeyCreate r ++ dataIV ++ tag

/-- `ECIES._decryptMessage(data)`: split `R(65) || IV(16) || C || tag(32)`,
re-derive the keys from `this._privateKey`, check the tag, decrypt. -/
def decryptMessage (C : Crypto) (privateKey : Nat) (data : List Nat) :
    Except String (List Nat) :=
  let publicKey := data.take 65
  let dataIV := slice data 65 (data.length - 32)
  let tag := data.drop (data.length - 32)
  let x := C.ecdhX publicKey privateKey
  let key := concatKDF C x 32
  let ekey := key.take 16
  let mkey := C.sha256 (slice key 16 32)
  if C.hmacSha256 mkey dataIV = tag then
    let iv := dataIV.take 16
    let encryptedData := dataIV.drop 16
    Except.ok (aes128 C ekey iv encryptedData)
  else Except.error "should have valid tag"

/-- `ECIES._setupFrame(remoteData, incoming)`. -/
def setupFrame (C : Crypto) (st : EciesState) (remoteData : List Nat)
    (incoming : Bool) : Except String EciesState :=
  match st.remoteNonce, st.ephemeralSharedSecret, st.initMsg with
  | some remoteNonce, some ess, some initMsg =>
    let nonceMaterial := if incoming then st.nonce ++ remoteNonce
                         else remoteNonce ++ st.nonce
    let hNonce := C.keccak256 nonceMaterial
    let iv0 : List Nat := List.replicate 16 0
    let sharedSecret := C.keccak256 (ess ++ hNonce)
    let aesSecret := C.keccak256 (ess ++ sharedSecret)
    let macSecret := C.keccak256 (ess ++ aesSecret)
    Except.ok { st with
      sharedSecret := some sharedSecret
      aesSecret := some aesSecret
      macSecret := some macSecret
      ingressAes := some ⟨aesSecret, iv0, 0⟩
      egressAes := some ⟨aesSecret, iv0, 0⟩
      ingressMac := some (macUpdate ⟨macSecret, []⟩ (xorL macSecret st.nonce ++ remoteData))
      egressMac := some (macUpdate ⟨macSecret, []⟩ (xorL macSecret remoteNonce ++ initMsg)) }
  | _, _, _ => Except.error "setup frame before handshake"

/-- `ECIES.createAuth()`; `r`/`iv` are the randomness of `_encryptMessage`. -/
def createAuth (C : Crypto) (st : EciesState) (r : Nat) (iv : List Nat) :
    Except String (List Nat × EciesState) :=
  match st.remotePublicKey with
  | none => Except.error "remote public key not set"
  | some remotePublicKey =>
    let x := C.ecdhX remotePublicKey st.privateKey
    let sig := C.sign (xorL x st.nonce) st.ephemeralPrivateKey
    let data := sig.1 ++ [sig.2] ++ C.keccak256 (pk2id st.ephemeralPublicKey) ++
      pk2id st.publicKey ++ st.nonce ++ [0]
    let msg := encryptMessage C remotePublicKey data r iv
    Except.ok (msg, { st with initMsg := some msg })

/-- `ECIES.parseAuth(data)`. -/
def parseAuth (C : Crypto) (st : EciesState) (data : List Nat) :
    Except String EciesState := do
  let st := { st with remoteInitMsg := some data }
  let decypted ← decryptMessage C st.privateKey data
  if decypted.length = 194 then
    let signature := decypted.take 64
    let recoveryId := (decypted.drop 64).headD 0
    let heid := slice decypted 65 97
    let remotePublicKey := id2pk (slice decypted 97 161)
    let remoteNonce := slice decypted 161 193
    if (decypted.drop 193).headD 1 = 0 then
      let x := C.ecdhX remotePublicKey st.privateKey
      let remoteEphemeralPublicKey := C.recover (xorL x remoteNonce) signature recoveryId
      let ephemeralSharedSecret := C.ecdhX remoteEphemeralPublicKey st.ephemeralPrivateKey
      if C.keccak256 (pk2id remoteEphemeralPublicKey) = heid then
        Except.ok { st with
          remotePublicKey := some remotePublicKey
          remoteNonce := some remoteNonce
          remoteEphemeralPublicKey := some remoteEphemeralPublicKey
          ephemeralSharedSecret := some ephemeralSharedSecret }
      else Except.error "the hash of the ephemeral key should match"
    else Except.error "invalid postfix byte"
  else Except.error "invalid packet length"

/-- `ECIES.createAck()`; `r`/`iv` are the randomness of `_encryptMessage`. -/
def createAck (C : Crypto) (st : EciesState) (r : Nat) (iv : List Nat) :
    Except String (List Nat × EciesState) := do
  match st.remotePublicKey, st.remoteInitMsg with
  | some remotePublicKey, some remoteInitMsg =>
    let data := pk2id st.ephemeralPublicKey ++ st.nonce ++ [0]
    let msg := encryptMessage C remotePublicKey data r iv
    let st ← setupFrame C { st with initMsg := some msg } remoteInitMsg true
    Except.ok (msg, st)
  | _, _ => Except.error "handshake state incomplete"

/-- `ECIES.parseAck(data)`. -/
def parseAck (C : Crypto) (st : EciesState) (data : List Nat) :
    Except String EciesState := do
  let decypted ← decryptMessage C st.privateKey data
  if decypted.length = 97 then
    let remoteEphemeralPublicKey := id2pk (decypted.take 64)
    let remoteNonce := slice decypted 64 96
    if (decypted.drop 96).headD 1 = 0 then
      let ephemeralSharedSecret := C.ecdhX remoteEphemeralPublicKey st.ephemeralPrivateKey
      setupFrame C { st with
        remoteEphemeralPublicKey := some remoteEphemeralPublicKey
        remoteNonce := some remoteNonce
        ephemeralSharedSecret := some ephemeralSharedSecret } data false
    else Except.error "invalid postfix byte"
  else Except.error "invalid packet length"

/-- `rlp.encode([0, 0])`: the two-element list of empty-integer encodings. -/
def rlpZeroPair : List Nat := [194, 128, 128]

/-- `ECIES.createHeader(size)`. -/
def createHeader (C : Crypto) (st : EciesState) (size : Nat) :
    Except String (List Nat × EciesState) :=
  match st.egressAes, st.egressMac with
  | some aes, some mac =>
    let sizeB := zfill (intToBuffer size) 3 true
    let header := zfill (sizeB ++ rlpZeroPair) 16 false
    let (encHeader, aes') := aesUpdate C aes header
    let mac' := macUpdateHeader C mac encHeader
    let tag := macDigest C mac'
    Except.ok (encHeader ++ tag, { st with egressAes := some aes', egressMac := some mac' })
  | _, _ => Except.error "frame state not ready"

/-- `ECIES.parseHeader(data)`.  The mutated state is returned alongside the
result even on failure: in the source the MAC absorb has already happened
when the tag check throws, while the AES stream and `_bodySize` have not yet
been touched. -/
def parseHeader (C : Crypto) (st : EciesState) (data : List Nat) :
    Except String Nat × EciesState :=
  match st.ingressAes, st.ingressMac with
  | some aes, some mac =>
    let header := data.take 16
    let macTag := slice data 16 32
    let mac' := macUpdateHeader C mac header
    if macDigest C mac' = macTag then
      let (decHeader, aes') := aesUpdate C aes header
      let size := bufferToInt (decHeader.take 3)
      (Except.ok size,
        { st with ingressAes := some aes', ingressMac := some mac', bodySize := some size })
    else (Except.error "Invalid MAC", { st with ingressMac := some mac' })
  | _, _ => (Except.error "frame state not ready", st)

/-- `ECIES.createBody(data)`. -/
def createBody (C : Crypto) (st : EciesState) (data : List Nat) :
    Except String (List Nat × EciesState) :=
  match st.egressAes, st.egressMac with
  | some aes, some mac =>
    let padded := zfill data (((data.length + 15) / 16) * 16) false
    let (encryptedData, aes') := aesUpdate C aes padded
    let mac' := macUpdateBody C mac encryptedData
    let tag := macDigest C mac'
    Except.ok (encryptedData ++ tag,
      { st with egressAes := some aes', egressMac := some mac' })
  | _, _ => Except.error "frame state not ready"

/-- `ECIES.parseBody(data)`.  As with `parseHeader` the mutated state is
returned even on failure; the `_bodySize === null` check happens first. -/
def parseBody (C : Crypto) (st : EciesState) (data : List Nat) :
    Except String (List Nat) × EciesState :=
  match st.bodySize with
  | none => (Except.error "need to parse header first", st)
  | some size =>
    match st.ingressAes, st.ingressMac with
    | some aes, some mac =>
      let body := data.take (data.length - 16)
      let macTag := data.drop (data.length - 16)
      let mac' := macUpdateBody C mac body
      if macDigest C mac' = macTag then
        let (decBody, aes') := aesUpdate C aes body
        (Except.ok (decBody.take size),
          { st with ingressAes := some aes', ingressMac := some mac', bodySize := none })
      else (Except.error "Invalid MAC", { st with ingressMac := some mac' })
    | _, _ => (Except.error "frame state not ready", st)

/-! ## DPT discovery server (`src/unnamed/part_000`)

The Node.js event loop, timers, promises, the lru-cache and the discovery
packet codec (`message.js`, missing from src) are modelled explicitly:
promises are numbered one-shot cells, `setTimeout` appends to a timer list
(firing a timer is a separate transition), and the codec is an abstract
`Env.encode` plus already-decoded inbound packets. -/

/-- An endpoint `{address, udpPort, tcpPort}`; `none` models `null`. -/
structure SEndpoint where
  address : String
  udpPort : Option Nat
  tcpPort : Option Nat
deriving DecidableEq

/-- The state of a JS promise: pending, or settled exactly once. -/
inductive PromState where
  | pending
  | resolved (id : List Nat) (address : String) (udpPort tcpPort : Option Nat)
  | rejected (err : String)
deriving DecidableEq

/-- A `setTimeout` callback still pending in the event loop. -/
inductive TimerKind where
  /-- The ping-timeout callback: captured `rkey`, deferred and peer. -/
  | pingTimeout (rkey : List Nat) (promiseId : Nat) (address : String) (udpPort : Option Nat)
  /-- The delayed `emit('peers', …)` for an unknown ping sender. -/
  | emitPeers (endpoints : List SEndpoint)
deriving DecidableEq

/-- A pending timer: absolute fire time (`setTimeout(cb, d)` at `now` gives
`fireAt = now + d`) and the captured callback. -/
structure STimer where
  fireAt : Nat
  kind : TimerKind
deriving DecidableEq

/-- An entry of `this._requests` (`rkey ↦ {peer, deferred, timeoutId}`). -/
structure SrvReq where
  peer : SEndpoint
  peerId : Option (List Nat)
  promiseId : Nat
deriving DecidableEq

/-- An entry of the lru-cache `this._requestsCache`: key `"address:udpPort"`
(modelled as the pair), the cached promise, insertion time. -/
structure CacheEntry where
  address : String
  udpPort : Option Nat
  promiseId : Nat
  insertedAt : Nat
deriving DecidableEq

/-- An event emitted by the server. -/
inductive SEvent where
  | peers (endpoints : List SEndpoint)
deriving DecidableEq

/-- A sent datagram, recorded as `(typename, destination)`. -/
structure Datagram where
  typename : String
  address : String
  udpPort : Option Nat
deriving DecidableEq

/-- The `Server` state: `alive` is `this._socket !== null`; `promises`
numbers every deferred ever created; `timers` are the armed `setTimeout`
callbacks; `sent` and `events` record the observable outputs. -/
structure ServerState where
  alive : Bool
  timeoutMs : Nat
  requests : List (List Nat × SrvReq)
  cache : List CacheEntry
  promises : List (Nat × PromState)
  nextPromiseId : Nat
  timers : List STimer
  sent : List Datagram
  events : List SEvent
deriving DecidableEq

/-- A fresh server (constructor): empty maps, default 10 s timeout. -/
def mkServer : ServerState :=
  { alive := true, timeoutMs := 10000, requests := [], cache := [],
    promises := [], nextPromiseId := 0, timers := [], sent := [], events := [] }

/-- `DEFAULT_CACHE_OPTS.maxAge = ms('1s')`. -/
def cacheMaxAge : Nat := 1000

/-- `DEFAULT_CACHE_OPTS.max = 1000`. -/
def cacheMax : Nat := 1000

/-- `lru-cache.get` with `stale: false`: a hit only while
`now - insertedAt ≤ maxAge`. -/
def cacheGet (cache : List CacheEntry) (address : String) (udpPort : Option Nat)
    (now : Nat) : Option Nat :=
  match cache.find? (fun e => e.address = address ∧ e.udpPort = udpPort) with
  | some e => if now - e.insertedAt ≤ cacheMaxAge then some e.promiseId else none
  | none => none

/-- `lru-cache.set`: replace any entry under the same key, trim to capacity
by dropping the oldest entries. -/
def cacheSet (cache : List CacheEntry) (e : CacheEntry) : List CacheEntry :=
  let dropped := cache.filter (fun o => ¬(o.address = e.address ∧ o.udpPort = e.udpPort))
  (e :: dropped).take cacheMax

/-- Settle a promise by resolution, a no-op unless it is still pending. -/
def resolveProm (ps : List (Nat × PromState)) (pid : Nat) (id : List Nat)
    (address : String) (udpPort tcpPort : Option Nat) : List (Nat × PromState) :=
  ps.map fun p =>
    if p.1 = pid ∧ p.2 = PromState.pending
    then (p.1, PromState.resolved id address udpPort tcpPort) else p

/-- Settle a promise by rejection, a no-op unless it is still pending. -/
def rejectProm (ps : List (Nat × PromState)) (pid : Nat) (err : String) :
    List (Nat × PromState) :=
  ps.map fun p =>
    if p.1 = pid ∧ p.2 = PromState.pending then (p.1, PromState.rejected err) else p

/-- The external collaborators of the server: the routing table (`this._dpt`)
and the discovery packet codec.  Modelled from the spec: `message.encode`
(missing from src) deterministically produces the signed datagram whose first
32 bytes are the correlation hash. -/
structure Env where
  encode : String → SEndpoint → List Nat
  getPeer : List Nat → Option SEndpoint
  getClosestPeers : List Nat → List SEndpoint

/-- `Server._send(peer, typename, data)`: record the datagram and return
`msg.slice(0, 32)`. -/
def srvSend (E : Env) (st : ServerState) (typename : String) (peer : SEndpoint) :
    List Nat × ServerState :=
  ((E.encode typename peer).take 32,
   { st with sent := st.sent ++ [⟨typename, peer.address, peer.udpPort⟩] })

/-- Shows an `Option Nat` the way a JS template string shows
`number | null`. -/
def showPort : Option Nat → String
  | some p => toString p
  | none => "null"

/-- `Server.ping(peer)` at wall-clock time `now`.  Returns the promise id the
caller awaits.  `peerId` is `peer.id` (used only in debug logging by the
source, kept for the descriptor type). -/
def srvPing (E : Env) (st : ServerState) (now : Nat) (peer : SEndpoint)
    (peerId : Option (List Nat)) : Except String (Nat × ServerState) :=
  if st.alive = false then Except.error "Server already destroyed"
  else
    match cacheGet st.cache peer.address peer.udpPort now with
    | some pid => Except.ok (pid, st)
    | none =>
      let (hash, st) := srvSend E st "ping" peer
      let pid := st.nextPromiseId
      let st := { st with
        promises := st.promises ++ [(pid, PromState.pending)]
        nextPromiseId := pid + 1
        requests := (hash, ⟨peer, peerId, pid⟩) ::
          st.requests.filter (fun r => r.1 ≠ hash)
        timers := st.timers ++
          [⟨now + st.timeoutMs, TimerKind.pingTimeout hash pid peer.address peer.udpPort⟩]
        cache := cacheSet st.cache ⟨peer.address, peer.udpPort, pid, now⟩ }
      Except.ok (pid, st)

/-- `Server.destroy()`: close and null the socket.  Nothing else is touched:
requests, timers, promises and the cache are all left as they are. -/
def srvDestroy (st : ServerState) : Except String ServerState :=
  if st.alive = false then Except.error "Server already destroyed"
  else Except.ok { st with alive := false }

/-- The event loop firing one armed timer: the timer is removed and its
captured callback runs. -/
def fireTimer (st : ServerState) (t : STimer) : ServerState :=
  let st := { st with timers := st.timers.erase t }
  match t.kind with
  | TimerKind.pingTimeout rkey pid address udpPort =>
    { st with
      requests := st.requests.filter (fun r => r.1 ≠ rkey)
      promises := rejectProm st.promises pid
        ("Timeout error: ping " ++ address ++ ":" ++ showPort udpPort) }
  | TimerKind.emitPeers endpoints =>
    { st with events := st.events ++ [SEvent.peers endpoints] }

/-- A decoded inbound datagram, as produced by `message.decode`. -/
inductive MsgData where
  | ping (version : Nat) (from_ toEp : SEndpoint)
  | pong (toEp : SEndpoint) (hash : List Nat)
  | findneighbours (id : List Nat)
  | neighbours (peers : List (SEndpoint × List Nat))
deriving DecidableEq

/-- Decoded packet info `{typename, data, publicKey, hash}`. -/
structure MsgInfo where
  data : MsgData
  publicKey : List Nat
  hash : List Nat
deriving DecidableEq

def MsgData.typename : MsgData → String
  | .ping _ _ _ => "ping"
  | .pong _ _ => "pong"
  | .findneighbours _ => "findneighbours"
  | .neighbours _ => "neighbours"

/-- `Server._handler(msg, rinfo)` on an already-decoded datagram, at time
`now`, with the sender's `rinfo` address/port. -/
def srvHandler (E : Env) (st : ServerState) (now : Nat) (info : MsgInfo)
    (rinfoAddress : String) (rinfoPort : Nat) : ServerState :=
  let peerId := pk2id info.publicKey
  let st :=
    match info.data with
    | MsgData.ping _ from_ _ =>
      if E.getPeer peerId = none ∧ from_.udpPort ≠ none then
        { st with timers := st.timers ++ [⟨now + 100, TimerKind.emitPeers [from_]⟩] }
      else st
    | _ => st
  match info.data with
  | MsgData.ping _ from_ _ =>
    (srvSend E st "pong" ⟨rinfoAddress, some rinfoPort, from_.tcpPort⟩).2
  | MsgData.pong _ hash =>
    match st.requests.find? (fun r => r.1 = hash) with
    | some r =>
      { st with
        requests := st.requests.filter (fun q => q.1 ≠ hash)
        promises := resolveProm st.promises r.2.promiseId peerId
          r.2.peer.address r.2.peer.udpPort r.2.peer.tcpPort }
    | none => st
  | MsgData.findneighbours id =>
    (srvSend E st "neighbours" ⟨rinfoAddress, some rinfoPort, none⟩).2
  | MsgData.neighbours peers =>
    { st with events := st.events ++ [SEvent.peers (peers.map (·.1))] }

/-- Driver for the dedup property: run `ping` once per entry of `times`
(sequentially, as the single-threaded event loop interleaves the calls),
collecting the returned promises. -/
def pingN (E : Env) (st : ServerState) (times : List Nat) (peer : SEndpoint)
    (peerId : Option (List Nat)) : Except String (List Nat × ServerState) :=
  match times with
  | [] => Except.ok ([], st)
  | t :: ts => do
    let (p, st1) ← srvPing E st t peer peerId
    let (ps, st2) ← pingN E st1 ts peer peerId
    Except.ok (p :: ps, st2)

/-! ## Concrete instantiations

A small executable `Crypto` instance satisfying every library law, used to
evaluate the theorems on concrete inputs.  The functions are toys (sums in
place of hashes), but they honour exactly the laws the real libraries do. -/

/-- A toy `Crypto` instance: hashes are length-padded checksums, ECDH is the
commutative sum of key material, and signatures carry the signer key in the
recovery id so that `recover ∘ sign` returns the signer's public key. -/
def toyCrypto : Crypto where
  keccak256 m := List.replicate 31 0 ++ [m.sum]
  sha256 m := List.replicate 31 0 ++ [m.sum + 1]
  hmacSha256 k m := List.replicate 31 0 ++ [k.sum + m.sum + 2]
  publicKeyCreate k := 4 :: (List.replicate 63 0 ++ [k])
  ecdhX p k := List.replicate 31 0 ++ [p.sum + k]
  sign m k := (List.replicate 63 0 ++ [m.sum], k)
  recover _ _ rid := 4 :: (List.replicate 63 0 ++ [rid])
  ks128 key iv i := key.sum + iv.sum + i
  ks256 key iv i := key.sum + iv.sum + 3 * i
  aesEcb _ d := d
  macKec s a := List.replicate 15 0 ++ [s.sum + a.sum]
  keccak256_len := by intro m; simp
  sha256_len := by intro m; simp
  hmac_len := by intro k m; simp
  pub_len := by intro k; simp
  pub_head := by intro k; rfl
  ecdh_comm := by intro a b; simp [List.sum_append]; omega
  sign_len := by intro m k; simp
  recover_sign := by intro m k; rfl
  mac_len := by intro s a; simp

/-- The initiator's fresh `ECIES` instance: own key `kI`, remote id known. -/
def initiatorStart (C : Crypto) (kI kR : Nat) (nI : List Nat) (eI : Nat) :
    EciesState :=
  mkEcies C kI (pk2id (C.publicKeyCreate kI)) (some (pk2id (C.publicKeyCreate kR)))
    nI eI

/-- The responder's fresh `ECIES` instance: own key `kR`, remote id unknown. -/
def responderStart (C : Crypto) (kR : Nat) (nR : List Nat) (eR : Nat) : EciesState :=
  mkEcies C kR (pk2id (C.publicKeyCreate kR)) none nR eR

/-- An `EciesState` with every optional field unset, for building concrete
test states. -/
def blankEcies : EciesState :=
  { privateKey := 1, publicKey := [], remotePublicKey := none, nonce := [],
    remoteNonce := none, initMsg := none, remoteInitMsg := none,
    ingressAes := none, egressAes := none, ingressMac := none, egressMac := none,
    ephemeralPrivateKey := 2, ephemeralPublicKey := [],
    remoteEphemeralPublicKey := none, ephemeralSharedSecret := none,
    sharedSecret := none, aesSecret := none, macSecret := none, bodySize := none }

/-- A toy environment for the server: a fixed-byte codec, an empty routing
table. -/
def toyEnv : Env where
  encode _ _ := List.replicate 40 9
  getPeer _ := none
  getClosestPeers _ := []

/-! ## Helper lemmas -/

theorem ctrXor_length (f : Nat → Nat) (i : Nat) (d : List Nat) :
    (ctrXor f i d).length = d.length := by
  induction d generalizing i with
  | nil => rfl
  | cons b rest ih => simp [ctrXor, ih]

theorem ctrXor_ctrXor (f : Nat → Nat) (i : Nat) (d : List Nat) :
    ctrXor f i (ctrXor f i d) = d := by
  induction d generalizing i with
  | nil => rfl
  | cons b rest ih =>
    simp [ctrXor, ih, Nat.xor_assoc, Nat.xor_self, Nat.xor_zero]

theorem take_len_append (a b : List Nat) : (a ++ b).take a.length = a := by
  simp

theorem drop_len_append (a b : List Nat) : (a ++ b).drop a.length = b := by
  simp

theorem take_at_append (a b : List Nat) (n : Nat) (h : n = a.length) :
    (a ++ b).take n = a := by subst h; simp

theorem drop_at_append (a b : List Nat) (n : Nat) (h : n = a.length) :
    (a ++ b).drop n = b := by subst h; simp

theorem drop_mid_append (a b : List Nat) (n : Nat) (h : a.length ≤ n) :
    (a ++ b).drop n = b.drop (n - a.length) := by
  rw [List.drop_append_eq_append_drop, List.drop_eq_nil_of_le h, List.nil_append]

theorem take_mid_append (a b : List Nat) (n : Nat) (h : a.length ≤ n) :
    (a ++ b).take n = a ++ b.take (n - a.length) := by
  rw [List.take_append_eq_append_take, List.take_of_length_le h]

/-- Extract the middle field of a concatenation by slicing. -/
theorem slice_field (x y z : List Nat) (a b : Nat) (ha : a = x.length)
    (hb : b = x.length + y.length) :
    slice (x ++ y ++ z) a b = y := by
  subst ha hb
  rw [slice, List.append_assoc, drop_len_append, Nat.add_sub_cancel_left,
    take_len_append]

/-- Extract a byte of a concatenation: `buf[n]` as `(buf.drop n).headD d`. -/
theorem byte_field (x : List Nat) (v : Nat) (rest : List Nat) (n d : Nat)
    (hn : n = x.length) :
    ((x ++ v :: rest).drop n).headD d = v := by
  subst hn; rw [drop_len_append]; rfl

theorem bufferToInt_zeros_append (k : Nat) (l : List Nat) :
    bufferToInt (List.replicate k 0 ++ l) = bufferToInt l := by
  induction k with
  | zero => rfl
  | succ n ih => simpa [bufferToInt, List.replicate_succ] using ih

theorem bufferToInt_natToBytesBE (n : Nat) : bufferToInt (natToBytesBE n) = n := by
  induction n using Nat.strong_induction_on with
  | _ n ih =>
    by_cases h : n = 0
    · subst h; rw [natToBytesBE]; rfl
    · rw [natToBytesBE]
      simp only [h, dite_false]
      have hlt : n / 256 < n := Nat.div_lt_self (Nat.pos_of_ne_zero h) (by omega)
      have := ih (n / 256) hlt
      simp [bufferToInt, List.foldl_append] at this ⊢
      rw [this]
      omega

theorem natToBytesBE_length_le (k : Nat) : ∀ n, n < 256 ^ k → (natToBytesBE n).length ≤ k := by
  induction k with
  | zero => intro n h; interval_cases n; simp [natToBytesBE]
  | succ k ih =>
    intro n h
    by_cases h0 : n = 0
    · subst h0; simp [natToBytesBE]
    · rw [natToBytesBE]
      simp only [h0, dite_false, List.length_append, List.length_cons, List.length_nil]
      have : n / 256 < 256 ^ k := by
        rw [Nat.div_lt_iff_lt_mul (by omega)]
        calc n < 256 ^ (k + 1) := h
        _ = 256 ^ k * 256 := by ring
      have := ih _ this
      omega

/-- Reading back a 3-byte left-zero-padded big-endian length. -/
theorem bufferToInt_zfill3 (n : Nat) (h : n < 2 ^ 24) :
    bufferToInt (zfill (intToBuffer n) 3 true) = n := by
  have hlen : (natToBytesBE n).length ≤ 3 := natToBytesBE_length_le 3 n (by norm_num at h ⊢; omega)
  rw [intToBuffer, zfill]
  by_cases h3 : 3 ≤ (natToBytesBE n).length
  · simp [h3, bufferToInt_natToBytesBE]
  · simp [h3, bufferToInt_zeros_append, bufferToInt_natToBytesBE]

theorem zfill3_length (n : Nat) (h : n < 2 ^ 24) :
    (zfill (intToBuffer n) 3 true).length = 3 := by
  have hlen : (natToBytesBE n).length ≤ 3 := natToBytesBE_length_le 3 n (by norm_num at h ⊢; omega)
  rw [intToBuffer, zfill]
  by_cases h3 : 3 ≤ (natToBytesBE n).length
  · rw [if_pos h3]; omega
  · rw [if_neg h3, if_pos rfl]; simp; omega

/-! ## C6: concatKDF -/

/-- C6: for a 32-byte input `Z`, `concatKDF(Z, 32)` is a single SHA-256 round:
`SHA256(0x00000001 || Z)`, the 32-byte output surviving the truncation. -/
theorem concatKDF_32 (C : Crypto) (Z : List Nat) (hZ : Z.length = 32) :
    concatKDF C Z 32 = C.sha256 ([0, 0, 0, 1] ++ Z) := by
  have h1 : ((32 + 7) * 8) / (64 * 8) = 0 := by norm_num
  rw [concatKDF]
  simp only [h1, List.range_succ, List.range_zero, List.map_append, List.map_cons,
    List.map_nil, List.nil_append, List.flatten]
  have hb : be32 (0 + 1) = [0, 0, 0, 1] := by norm_num [be32]
  rw [hb]
  simp [List.take_of_length_le, C.sha256_len]

/-- Witness for C6 at `Z = 32` zero bytes (the spec's KDF vector). -/
theorem concatKDF_32_witness :
    concatKDF toyCrypto (List.replicate 32 0) 32 =
      toyCrypto.sha256 ([0, 0, 0, 1] ++ List.replicate 32 0) :=
  concatKDF_32 toyCrypto (List.replicate 32 0) (by simp)

theorem zfill_right_spec (b : List Nat) (s : Nat) (h : b.length ≤ s) :
    zfill b s false = b ++ List.replicate (s - b.length) 0 := by
  rw [zfill]
  by_cases hs : s ≤ b.length
  · rw [if_pos hs]
    have : s = b.length := by omega
    simp [this]
  · rw [if_neg hs]
    simp

/-! ## Frame codec roundtrip (shared by C1 and C2) -/

/-- Evaluation of `createHeader` on a ready egress state. -/
theorem createHeader_eq (C : Crypto) (st : EciesState) (size : Nat)
    (aes : Aes) (mac : Mac)
    (hA : st.egressAes = some aes) (hAm : st.egressMac = some mac) :
    createHeader C st size =
      Except.ok
        (ctrXor (C.ks256 aes.key aes.iv) aes.pos
            (zfill (zfill (intToBuffer size) 3 true ++ rlpZeroPair) 16 false) ++
          macDigest C (macUpdateHeader C mac
            (ctrXor (C.ks256 aes.key aes.iv) aes.pos
              (zfill (zfill (intToBuffer size) 3 true ++ rlpZeroPair) 16 false))),
        { st with
            egressAes := some { aes with pos := aes.pos +
              (zfill (zfill (intToBuffer size) 3 true ++ rlpZeroPair) 16 false).length }
            egressMac := some (macUpdateHeader C mac
              (ctrXor (C.ks256 aes.key aes.iv) aes.pos
                (zfill (zfill (intToBuffer size) 3 true ++ rlpZeroPair) 16 false))) }) := by
  simp only [createHeader, hA, hAm, aesUpdate]

/-- Evaluation of `parseHeader` on a ready ingress state when the tag
matches. -/
theorem parseHeader_ok_eq (C : Crypto) (st : EciesState) (data : List Nat)
    (aes : Aes) (mac : Mac)
    (hB : st.ingressAes = some aes) (hBm : st.ingressMac = some mac)
    (hmac : macDigest C (macUpdateHeader C mac (data.take 16)) = slice data 16 32) :
    parseHeader C st data =
      (Except.ok (bufferToInt
          ((ctrXor (C.ks256 aes.key aes.iv) aes.pos (data.take 16)).take 3)),
       { st with
           ingressAes := some { aes with pos := aes.pos + (data.take 16).length }
           ingressMac := some (macUpdateHeader C mac (data.take 16))
           bodySize := some (bufferToInt
             ((ctrXor (C.ks256 aes.key aes.iv) aes.pos (data.take 16)).take 3)) }) := by
  simp only [parseHeader, hB, hBm, aesUpdate]
  rw [if_pos hmac]

/-- Evaluation of `createBody` on a ready egress state. -/
theorem createBody_eq (C : Crypto) (st : EciesState) (data : List Nat)
    (aes : Aes) (mac : Mac)
    (hA : st.egressAes = some aes) (hAm : st.egressMac = some mac) :
    createBody C st data =
      Except.ok
        (ctrXor (C.ks256 aes.key aes.iv) aes.pos
            (zfill data (((data.length + 15) / 16) * 16) false) ++
          macDigest C (macUpdateBody C mac
            (ctrXor (C.ks256 aes.key aes.iv) aes.pos
              (zfill data (((data.length + 15) / 16) * 16) false))),
        { st with
            egressAes := some { aes with pos := aes.pos +
              (zfill data (((data.length + 15) / 16) * 16) false).length }
            egressMac := some (macUpdateBody C mac
              (ctrXor (C.ks256 aes.key aes.iv) aes.pos
                (zfill data (((data.length + 15) / 16) * 16) false))) }) := by
  simp only [createBody, hA, hAm, aesUpdate]

/-- Evaluation of `parseBody` on a ready ingress state when the tag
matches. -/
theorem parseBody_ok_eq (C : Crypto) (st : EciesState) (data : List Nat)
    (aes : Aes) (mac : Mac) (size : Nat)
    (hsize : st.bodySize = some size)
    (hB : st.ingressAes = some aes) (hBm : st.ingressMac = some mac)
    (hmac : macDigest C (macUpdateBody C mac (data.take (data.length - 16))) =
      data.drop (data.length - 16)) :
    parseBody C st data =
      (Except.ok ((ctrXor (C.ks256 aes.key aes.iv) aes.pos
          (data.take (data.length - 16))).take size),
       { st with
           ingressAes := some { aes with pos := aes.pos +
             (data.take (data.length - 16)).length }
           ingressMac := some (macUpdateBody C mac (data.take (data.length - 16)))
           bodySize := none }) := by
  simp only [parseBody, hsize, hB, hBm, aesUpdate]
  rw [if_pos hmac]

/-- On a mirrored pair of frame states, a header/body write on the egress
side parses back on the ingress side to the same size and the exact payload,
and the states stay mirrored. -/
theorem mirroredFrameStep (C : Crypto) (stA stB : EciesState) (data : List Nat)
    (aes : Aes) (mac : Mac)
    (hA : stA.egressAes = some aes) (hAm : stA.egressMac = some mac)
    (hB : stB.ingressAes = some aes) (hBm : stB.ingressMac = some mac)
    (hlen : data.length < 2 ^ 24) :
    ∃ hout bout stA1 stA2 stB1 stB2,
      createHeader C stA data.length = Except.ok (hout, stA1) ∧
      parseHeader C stB hout = (Except.ok data.length, stB1) ∧
      createBody C stA1 data = Except.ok (bout, stA2) ∧
      parseBody C stB1 bout = (Except.ok data, stB2) ∧
      stA2.egressAes = stB2.ingressAes ∧ stA2.egressMac = stB2.ingressMac := by
  have hsizeB : (zfill (intToBuffer data.length) 3 true).length = 3 :=
    zfill3_length _ hlen
  have hhdr_eq : zfill (zfill (intToBuffer data.length) 3 true ++ rlpZeroPair) 16 false =
      (zfill (intToBuffer data.length) 3 true ++ rlpZeroPair) ++ List.replicate 10 0 := by
    rw [zfill_right_spec _ _ (by simp [rlpZeroPair, hsizeB])]
    simp [rlpZeroPair, hsizeB]
  have hhdrlen : (zfill (zfill (intToBuffer data.length) 3 true ++ rlpZeroPair) 16
      false).length = 16 := by
    rw [hhdr_eq]; simp [rlpZeroPair, hsizeB]
  set hdr : List Nat :=
    zfill (zfill (intToBuffer data.length) 3 true ++ rlpZeroPair) 16 false with hdrdef
  set enc : List Nat := ctrXor (C.ks256 aes.key aes.iv) aes.pos hdr with encdef
  set mac1 : Mac := macUpdateHeader C mac enc with mac1def
  set tag1 : List Nat := macDigest C mac1 with tag1def
  have henclen : enc.length = 16 := by rw [encdef, ctrXor_length, hhdrlen]
  have e1 := createHeader_eq C stA data.length aes mac hA hAm
  rw [← hdrdef, ← encdef, ← mac1def, ← tag1def, hhdrlen] at e1
  have htake : (enc ++ tag1).take 16 = enc := take_at_append _ _ _ henclen.symm
  have hslice : slice (enc ++ tag1) 16 32 = tag1 := by
    rw [slice, drop_at_append _ _ _ henclen.symm]
    have h32 : (32 : Nat) - 16 = 16 := by norm_num
    rw [h32, tag1def]
    exact List.take_of_length_le (le_of_eq (C.mac_len _ _))
  have hmac1 : macDigest C (macUpdateHeader C mac ((enc ++ tag1).take 16)) =
      slice (enc ++ tag1) 16 32 := by rw [htake, ← mac1def, ← tag1def, hslice]
  have e2 := parseHeader_ok_eq C stB (enc ++ tag1) aes mac hB hBm hmac1
  rw [htake, ← mac1def, henclen] at e2
  have hdec : ctrXor (C.ks256 aes.key aes.iv) aes.pos enc = hdr := by
    rw [encdef]; exact ctrXor_ctrXor _ _ _
  rw [hdec] at e2
  have h3 : hdr.take 3 = zfill (intToBuffer data.length) 3 true := by
    rw [hhdr_eq, List.append_assoc]
    exact take_at_append _ _ _ hsizeB.symm
  rw [h3, bufferToInt_zfill3 _ hlen] at e2
  -- body phase
  set padded : List Nat := zfill data (((data.length + 15) / 16) * 16) false with paddeddef
  set encB : List Nat := ctrXor (C.ks256 aes.key aes.iv) (aes.pos + 16) padded with encBdef
  set mac2 : Mac := macUpdateBody C mac1 encB with mac2def
  set tag2 : List Nat := macDigest C mac2 with tag2def
  have hencBlen : encB.length = padded.length := by rw [encBdef, ctrXor_length]
  have e3 := createBody_eq C
    { stA with egressAes := some { aes with pos := aes.pos + 16 }, egressMac := some mac1 }
    data { aes with pos := aes.pos + 16 } mac1 rfl rfl
  dsimp only at e3
  rw [← paddeddef, ← encBdef, ← mac2def, ← tag2def] at e3
  have hsplit : (encB ++ tag2).length - 16 = encB.length := by
    have : tag2.length = 16 := by rw [tag2def]; exact C.mac_len _ _
    simp [this]
  have htakeB : (encB ++ tag2).take ((encB ++ tag2).length - 16) = encB := by
    rw [hsplit]; exact take_len_append _ _
  have hdropB : (encB ++ tag2).drop ((encB ++ tag2).length - 16) = tag2 := by
    rw [hsplit]; exact drop_len_append _ _
  have hmac2 : macDigest C (macUpdateBody C mac1
      ((encB ++ tag2).take ((encB ++ tag2).length - 16))) =
      (encB ++ tag2).drop ((encB ++ tag2).length - 16) := by
    rw [htakeB, ← mac2def, ← tag2def, hdropB]
  have e4 := parseBody_ok_eq C
    { stB with
        ingressAes := some { aes with pos := aes.pos + 16 }
        ingressMac := some mac1
        bodySize := some data.length }
    (encB ++ tag2) { aes with pos := aes.pos + 16 } mac1 data.length rfl rfl rfl hmac2
  dsimp only at e4
  rw [htakeB, ← mac2def, hencBlen] at e4
  have hdecB : ctrXor (C.ks256 aes.key aes.iv) (aes.pos + 16) encB = padded := by
    rw [encBdef]; exact ctrXor_ctrXor _ _ _
  rw [hdecB] at e4
  have hpad : padded = data ++
      List.replicate (((data.length + 15) / 16) * 16 - data.length) 0 := by
    rw [paddeddef]; exact zfill_right_spec _ _ (by omega)
  have hptake : padded.take data.length = data := by
    rw [hpad]; exact take_at_append _ _ _ rfl
  rw [hptake] at e4
  exact ⟨_, _, _, _, _, _, e1, e2, e3, e4, rfl, rfl⟩

/-- C2: on a mirrored pair of frame states, any payload of length at most
`2^24 - 1` (including length 0 and multiples of 16, which get no padding)
round-trips: `parseHeader` of `createHeader(data.length)` returns
`data.length`, and `parseBody` of `createBody(data)` returns exactly `data`,
the zero right-padding being cut off at the size parsed from the header. -/
theorem frame_roundtrip (C : Crypto) (stA stB : EciesState) (data : List Nat)
    (aes : Aes) (mac : Mac)
    (hA : stA.egressAes = some aes) (hAm : stA.egressMac = some mac)
    (hB : stB.ingressAes = some aes) (hBm : stB.ingressMac = some mac)
    (hlen : data.length ≤ 2 ^ 24 - 1) :
    (data.length % 16 = 0 →
      zfill data (((data.length + 15) / 16) * 16) false = data) ∧
    ∃ hout bout stA1 stA2 stB1 stB2,
      createHeader C stA data.length = Except.ok (hout, stA1) ∧
      parseHeader C stB hout = (Except.ok data.length, stB1) ∧
      createBody C stA1 data = Except.ok (bout, stA2) ∧
      parseBody C stB1 bout = (Except.ok data, stB2) := by
  constructor
  · intro h16
    rw [zfill_right_spec _ _ (by omega)]
    have hmul : ((data.length + 15) / 16) * 16 = data.length := by omega
    rw [hmul]
    simp
  · obtain ⟨a, b, c, d, e, f, p1, p2, p3, p4, -, -⟩ :=
      mirroredFrameStep C stA stB data aes mac hA hAm hB hBm (by omega)
    exact ⟨a, b, c, d, e, f, p1, p2, p3, p4⟩

/-- Witness for C2 on concrete mirrored states and a 3-byte payload. -/
theorem frame_roundtrip_witness :
    ∃ hout bout stA1 stA2 stB1 stB2,
      createHeader toyCrypto
        { blankEcies with
            egressAes := some ⟨[1], [0], 0⟩
            egressMac := some ⟨[2], []⟩ } 3 = Except.ok (hout, stA1) ∧
      parseHeader toyCrypto
        { blankEcies with
            ingressAes := some ⟨[1], [0], 0⟩
            ingressMac := some ⟨[2], []⟩ } hout = (Except.ok 3, stB1) ∧
      createBody toyCrypto stA1 [7, 8, 9] = Except.ok (bout, stA2) ∧
      parseBody toyCrypto stB1 bout = (Except.ok [7, 8, 9], stB2) := by
  have h := (frame_roundtrip toyCrypto
    { blankEcies with
        egressAes := some ⟨[1], [0], 0⟩
        egressMac := some ⟨[2], []⟩ }
    { blankEcies with
        ingressAes := some ⟨[1], [0], 0⟩
        ingressMac := some ⟨[2], []⟩ }
    [7, 8, 9] ⟨[1], [0], 0⟩ ⟨[2], []⟩ rfl rfl rfl rfl (by norm_num)).2
  simpa using h

/-! ## C5: the one-shot ECIES message codec inverts -/

/-! ## C5: the one-shot ECIES message codec inverts -/

/-- `_decryptMessage` on a well-shaped envelope whose tag matches the one
derived from `ecdhX(R, priv)` decrypts the ciphertext part. -/
theorem decryptMessage_ok (C : Crypto) (priv : Nat) (P ivv enc tag : List Nat)
    (hP : P.length = 65) (hiv : ivv.length = 16) (htagLen : tag.length = 32)
    (htag : C.hmacSha256 (C.sha256 (slice (concatKDF C (C.ecdhX P priv) 32) 16 32))
      (ivv ++ enc) = tag) :
    decryptMessage C priv (P ++ (ivv ++ enc) ++ tag) =
      Except.ok (aes128 C ((concatKDF C (C.ecdhX P priv) 32).take 16) ivv enc) := by
  have e1 : (P ++ (ivv ++ enc) ++ tag).take 65 = P := by
    rw [List.append_assoc]; exact take_at_append _ _ _ hP.symm
  have e2 : slice (P ++ (ivv ++ enc) ++ tag) 65
      ((P ++ (ivv ++ enc) ++ tag).length - 32) = ivv ++ enc := by
    apply slice_field
    · omega
    · simp [hP, hiv, htagLen]; omega
  have e3 : (P ++ (ivv ++ enc) ++ tag).drop
      ((P ++ (ivv ++ enc) ++ tag).length - 32) = tag := by
    apply drop_at_append
    simp [hP, hiv, htagLen]; omega
  simp only [decryptMessage]
  rw [e1, e2, e3, if_pos htag, take_at_append _ _ _ hiv.symm,
    drop_at_append _ _ _ hiv.symm]

/-- Decrypt-of-encrypt helper, shared by the handshake development. -/
theorem decrypt_encrypt_aux (C : Crypto) (priv r : Nat) (data iv : List Nat)
    (hiv : iv.length = 16) :
    decryptMessage C priv (encryptMessage C (C.publicKeyCreate priv) data r iv) =
      Except.ok data := by
  have hcomm : C.ecdhX (C.publicKeyCreate r) priv = C.ecdhX (C.publicKeyCreate priv) r :=
    C.ecdh_comm r priv
  simp only [encryptMessage]
  rw [decryptMessage_ok C priv _ iv _ _ (C.pub_len r) hiv (C.hmac_len _ _)
    (by rw [hcomm])]
  rw [hcomm, aes128, aes128, ctrXor_ctrXor]

/-- C5: `_decryptMessage` with `priv` inverts `_encryptMessage` addressed to
`publicKeyCreate priv`; the envelope is `R(65) ++ IV(16) ++ C ++ tag(32)` with
the ciphertext as long as the plaintext, and decrypting the unmodified
envelope returns exactly the plaintext. -/
theorem encrypt_decrypt_roundtrip (C : Crypto) (priv r : Nat) (data iv : List Nat)
    (hiv : iv.length = 16) :
    (∃ ct tag, encryptMessage C (C.publicKeyCreate priv) data r iv =
        C.publicKeyCreate r ++ iv ++ ct ++ tag ∧
        (C.publicKeyCreate r).length = 65 ∧ ct.length = data.length ∧
        tag.length = 32) ∧
    decryptMessage C priv (encryptMessage C (C.publicKeyCreate priv) data r iv) =
      Except.ok data := by
  constructor
  · simp only [encryptMessage]
    refine ⟨aes128 C ((concatKDF C (C.ecdhX (C.publicKeyCreate priv) r) 32).take 16)
        iv data,
      C.hmacSha256
        (C.sha256 (slice (concatKDF C (C.ecdhX (C.publicKeyCreate priv) r) 32) 16 32))
        (iv ++ aes128 C ((concatKDF C (C.ecdhX (C.publicKeyCreate priv) r) 32).take 16)
          iv data),
      by simp [List.append_assoc], C.pub_len r, ctrXor_length _ _ _, C.hmac_len _ _⟩
  · exact decrypt_encrypt_aux C priv r data iv hiv

/-- Witness for C5 at concrete keys, plaintext and IV. -/
theorem encrypt_decrypt_roundtrip_witness :
    decryptMessage toyCrypto 5
      (encryptMessage toyCrypto (toyCrypto.publicKeyCreate 5) [1, 2, 3] 7
        (List.replicate 16 0)) = Except.ok [1, 2, 3] :=
  (encrypt_decrypt_roundtrip toyCrypto 5 7 [1, 2, 3] (List.replicate 16 0)
    (by simp)).2

/-! ## C1: the handshake agrees on secrets and mirrors the frame states -/

theorem id2pk_pk2id_pub (C : Crypto) (k : Nat) :
    id2pk (pk2id (C.publicKeyCreate k)) = C.publicKeyCreate k := by
  have hh := C.pub_head k
  cases hpk : C.publicKeyCreate k with
  | nil => rw [hpk] at hh; simp at hh
  | cons a t =>
    rw [hpk] at hh
    simp only [List.head?_cons, Option.some.injEq] at hh
    simp [id2pk, pk2id, hh]

theorem pk2id_pub_len (C : Crypto) (k : Nat) :
    (pk2id (C.publicKeyCreate k)).length = 64 := by
  simp [pk2id, C.pub_len]

/-- Byte layout of the 194-byte auth plaintext. -/
theorem authLayout (s64 h32 p64 n32 : List Nat) (r : Nat)
    (hs : s64.length = 64) (hh : h32.length = 32) (hp : p64.length = 64)
    (hn : n32.length = 32) :
    (s64 ++ [r] ++ h32 ++ p64 ++ n32 ++ [0]).length = 194 ∧
    (s64 ++ [r] ++ h32 ++ p64 ++ n32 ++ [0]).take 64 = s64 ∧
    ((s64 ++ [r] ++ h32 ++ p64 ++ n32 ++ [0]).drop 64).headD 0 = r ∧
    slice (s64 ++ [r] ++ h32 ++ p64 ++ n32 ++ [0]) 65 97 = h32 ∧
    slice (s64 ++ [r] ++ h32 ++ p64 ++ n32 ++ [0]) 97 161 = p64 ∧
    slice (s64 ++ [r] ++ h32 ++ p64 ++ n32 ++ [0]) 161 193 = n32 ∧
    ((s64 ++ [r] ++ h32 ++ p64 ++ n32 ++ [0]).drop 193).headD 1 = 0 := by
  simp only [List.append_assoc, List.singleton_append, List.cons_append, List.nil_append]
  have d65 : (s64 ++ r :: (h32 ++ (p64 ++ (n32 ++ [0])))).drop 65 =
      h32 ++ (p64 ++ (n32 ++ [0])) := by
    rw [drop_mid_append _ _ 65 (by omega), hs]
    rfl
  have d97 : (s64 ++ r :: (h32 ++ (p64 ++ (n32 ++ [0])))).drop 97 =
      p64 ++ (n32 ++ [0]) := by
    rw [drop_mid_append _ _ 97 (by omega), hs]
    show (r :: (h32 ++ (p64 ++ (n32 ++ [0])))).drop 33 = _
    rw [List.drop_succ_cons, drop_mid_append _ _ 32 (by omega), hh]
    simp
  have d161 : (s64 ++ r :: (h32 ++ (p64 ++ (n32 ++ [0])))).drop 161 =
      n32 ++ [0] := by
    rw [drop_mid_append _ _ 161 (by omega), hs]
    show (r :: (h32 ++ (p64 ++ (n32 ++ [0])))).drop 97 = _
    rw [List.drop_succ_cons, drop_mid_append _ _ 96 (by omega), hh]
    show (p64 ++ (n32 ++ [0])).drop 64 = _
    rw [drop_mid_append _ _ 64 (by omega), hp]
    simp
  have d193 : (s64 ++ r :: (h32 ++ (p64 ++ (n32 ++ [0])))).drop 193 = [0] := by
    rw [drop_mid_append _ _ 193 (by omega), hs]
    show (r :: (h32 ++ (p64 ++ (n32 ++ [0])))).drop 129 = _
    rw [List.drop_succ_cons, drop_mid_append _ _ 128 (by omega), hh]
    show (p64 ++ (n32 ++ [0])).drop 96 = _
    rw [drop_mid_append _ _ 96 (by omega), hp]
    show (n32 ++ [0]).drop 32 = _
    rw [drop_at_append _ _ 32 hn.symm]
  refine ⟨by simp [hs, hh, hp, hn], ?_, ?_, ?_, ?_, ?_, ?_⟩
  · rw [take_at_append _ _ 64 hs.symm]
  · rw [drop_at_append _ _ 64 hs.symm]; rfl
  · rw [slice, d65]
    show (h32 ++ (p64 ++ (n32 ++ [0]))).take 32 = h32
    rw [take_at_append _ _ 32 hh.symm]
  · rw [slice, d97]
    show (p64 ++ (n32 ++ [0])).take 64 = p64
    rw [take_at_append _ _ 64 hp.symm]
  · rw [slice, d161]
    show (n32 ++ [0]).take 32 = n32
    rw [take_at_append _ _ 32 hn.symm]
  · rw [d193]; rfl

/-- Byte layout of the 97-byte ack plaintext. -/
theorem ackLayout (p64 n32 : List Nat) (hp : p64.length = 64)
    (hn : n32.length = 32) :
    (p64 ++ n32 ++ [0]).length = 97 ∧
    (p64 ++ n32 ++ [0]).take 64 = p64 ∧
    slice (p64 ++ n32 ++ [0]) 64 96 = n32 ∧
    ((p64 ++ n32 ++ [0]).drop 96).headD 1 = 0 := by
  simp only [List.append_assoc]
  have d96 : (p64 ++ (n32 ++ [0])).drop 96 = [0] := by
    rw [drop_mid_append _ _ 96 (by omega), hp]
    show (n32 ++ [0]).drop 32 = _
    rw [drop_at_append _ _ 32 hn.symm]
  refine ⟨by simp [hp, hn], ?_, ?_, ?_⟩
  · rw [take_at_append _ _ 64 hp.symm]
  · rw [slice, drop_at_append _ _ 64 hp.symm]
    show (n32 ++ [0]).take 32 = n32
    rw [take_at_append _ _ 32 hn.symm]
  · rw [d96]; rfl

/-- C1: for all static keys, ephemeral keys and 32-byte nonces, the
auth/ack exchange succeeds on both sides; both sides compute the same
`ephemeralSharedSecret`, `sharedSecret`, `aesSecret` and `macSecret`, the
initiator's egress AES/MAC state equals the responder's ingress state and
vice versa, and every frame written by one side parses to the identical
plaintext at the other. -/
theorem handshake_agreement (C : Crypto) (kI kR eI eR rA rK : Nat)
    (nI nR ivA ivK : List Nat)
    (hnI : nI.length = 32) (hnR : nR.length = 32)
    (hivA : ivA.length = 16) (hivK : ivK.length = 16) :
    ∃ auth ack stI1 stI2 stR1 stR2,
      createAuth C (initiatorStart C kI kR nI eI) rA ivA =
        Except.ok (auth, stI1) ∧
      parseAuth C (responderStart C kR nR eR) auth = Except.ok stR1 ∧
      createAck C stR1 rK ivK = Except.ok (ack, stR2) ∧
      parseAck C stI1 ack = Except.ok stI2 ∧
      stI2.ephemeralSharedSecret = stR2.ephemeralSharedSecret ∧
      stI2.ephemeralSharedSecret ≠ none ∧
      stI2.sharedSecret = stR2.sharedSecret ∧ stI2.sharedSecret ≠ none ∧
      stI2.aesSecret = stR2.aesSecret ∧ stI2.aesSecret ≠ none ∧
      stI2.macSecret = stR2.macSecret ∧ stI2.macSecret ≠ none ∧
      stI2.egressAes = stR2.ingressAes ∧ stI2.ingressAes = stR2.egressAes ∧
      stI2.egressMac = stR2.ingressMac ∧ stI2.ingressMac = stR2.egressMac ∧
      (∀ d : List Nat, d.length < 2 ^ 24 →
        (∃ hout bout a1 a2 b1 b2,
          createHeader C stI2 d.length = Except.ok (hout, a1) ∧
          parseHeader C stR2 hout = (Except.ok d.length, b1) ∧
          createBody C a1 d = Except.ok (bout, a2) ∧
          parseBody C b1 bout = (Except.ok d, b2)) ∧
        (∃ hout bout a1 a2 b1 b2,
          createHeader C stR2 d.length = Except.ok (hout, a1) ∧
          parseHeader C stI2 hout = (Except.ok d.length, b1) ∧
          createBody C a1 d = Except.ok (bout, a2) ∧
          parseBody C b1 bout = (Except.ok d, b2))) := by
  have hI0 : initiatorStart C kI kR nI eI =
      { privateKey := kI
        publicKey := C.publicKeyCreate kI
        remotePublicKey := some (C.publicKeyCreate kR)
        nonce := nI
        remoteNonce := none
        initMsg := none
        remoteInitMsg := none
        ingressAes := none
        egressAes := none
        ingressMac := none
        egressMac := none
        ephemeralPrivateKey := eI
        ephemeralPublicKey := C.publicKeyCreate eI
        remoteEphemeralPublicKey := none
        ephemeralSharedSecret := none
        sharedSecret := none
        aesSecret := none
        macSecret := none
        bodySize := none } := by
    simp [initiatorStart, mkEcies, id2pk_pk2id_pub]
  have hR0 : responderStart C kR nR eR =
      { privateKey := kR
        publicKey := C.publicKeyCreate kR
        remotePublicKey := none
        nonce := nR
        remoteNonce := none
        initMsg := none
        remoteInitMsg := none
        ingressAes := none
        egressAes := none
        ingressMac := none
        egressMac := none
        ephemeralPrivateKey := eR
        ephemeralPublicKey := C.publicKeyCreate eR
        remoteEphemeralPublicKey := none
        ephemeralSharedSecret := none
        sharedSecret := none
        aesSecret := none
        macSecret := none
        bodySize := none } := by
    simp [responderStart, mkEcies, id2pk_pk2id_pub]
  set x := C.ecdhX (C.publicKeyCreate kR) kI with xdef
  set sg := C.sign (xorL x nI) eI with sgdef
  set authData := sg.1 ++ [sg.2] ++ C.keccak256 (pk2id (C.publicKeyCreate eI)) ++
    pk2id (C.publicKeyCreate kI) ++ nI ++ [0] with authDataDef
  set auth := encryptMessage C (C.publicKeyCreate kR) authData rA ivA with authdef
  have e1 : createAuth C (initiatorStart C kI kR nI eI) rA ivA =
      Except.ok (auth, { initiatorStart C kI kR nI eI with initMsg := some auth }) := by
    rw [hI0]
    simp only [createAuth]
  have hx : C.ecdhX (C.publicKeyCreate kI) kR = x := by
    rw [xdef]; exact C.ecdh_comm kI kR
  have hrec : C.recover (xorL x nI) sg.1 sg.2 = C.publicKeyCreate eI := by
    rw [sgdef]; exact C.recover_sign (xorL x nI) eI
  have hdecA : decryptMessage C kR auth = Except.ok authData := by
    rw [authdef]; exact decrypt_encrypt_aux C kR rA authData ivA hivA
  obtain ⟨aL, aTake, aByte, aHeid, aPk, aNonce, aLast⟩ :=
    authLayout sg.1 (C.keccak256 (pk2id (C.publicKeyCreate eI)))
      (pk2id (C.publicKeyCreate kI)) nI sg.2 (C.sign_len _ _) (C.keccak256_len _)
      (pk2id_pub_len C kI) hnI
  rw [← authDataDef] at aL aTake aByte aHeid aPk aNonce aLast
  set essR := C.ecdhX (C.publicKeyCreate eI) eR with essRdef
  set stR1v : EciesState :=
    { privateKey := kR
      publicKey := C.publicKeyCreate kR
      remotePublicKey := some (C.publicKeyCreate kI)
      nonce := nR
      remoteNonce := some nI
      initMsg := none
      remoteInitMsg := some auth
      ingressAes := none
      egressAes := none
      ingressMac := none
      egressMac := none
      ephemeralPrivateKey := eR
      ephemeralPublicKey := C.publicKeyCreate eR
      remoteEphemeralPublicKey := some (C.publicKeyCreate eI)
      ephemeralSharedSecret := some essR
      sharedSecret := none
      aesSecret := none
      macSecret := none
      bodySize := none } with stR1vdef
  have e2 : parseAuth C (responderStart C kR nR eR) auth = Except.ok stR1v := by
    rw [hR0, stR1vdef]
    simp only [parseAuth]
    rw [hdecA]
    simp only [bind, Except.bind]
    rw [aL, if_pos rfl, aTake, aByte, aHeid, aPk, aNonce, aLast, if_pos rfl,
      id2pk_pk2id_pub C kI, hx, hrec, if_pos rfl]
  set ackData := pk2id (C.publicKeyCreate eR) ++ nR ++ [0] with ackDataDef
  set ack := encryptMessage C (C.publicKeyCreate kI) ackData rK ivK with ackdef
  set hN := C.keccak256 (nR ++ nI) with hNdef
  set ss := C.keccak256 (essR ++ hN) with ssdef
  set as0 := C.keccak256 (essR ++ ss) with as0def
  set ms := C.keccak256 (essR ++ as0) with msdef
  set macInR := macUpdate ⟨ms, []⟩ (xorL ms nR ++ auth) with macInRdef
  set macEgR := macUpdate ⟨ms, []⟩ (xorL ms nI ++ ack) with macEgRdef
  set aesF : Aes := ⟨as0, List.replicate 16 0, 0⟩ with aesFdef
  set stR2v : EciesState :=
    { privateKey := kR
      publicKey := C.publicKeyCreate kR
      remotePublicKey := some (C.publicKeyCreate kI)
      nonce := nR
      remoteNonce := some nI
      initMsg := some ack
      remoteInitMsg := some auth
      ingressAes := some aesF
      egressAes := some aesF
      ingressMac := some macInR
      egressMac := some macEgR
      ephemeralPrivateKey := eR
      ephemeralPublicKey := C.publicKeyCreate eR
      remoteEphemeralPublicKey := some (C.publicKeyCreate eI)
      ephemeralSharedSecret := some essR
      sharedSecret := some ss
      aesSecret := some as0
      macSecret := some ms
      bodySize := none } with stR2vdef
  have e3 : createAck C stR1v rK ivK = Except.ok (ack, stR2v) := by
    rfl
  set stI1v : EciesState :=
    { initiatorStart C kI kR nI eI with initMsg := some auth } with stI1vdef
  have hdecK : decryptMessage C kI ack = Except.ok ackData := by
    rw [ackdef]; exact decrypt_encrypt_aux C kI rK ackData ivK hivK
  obtain ⟨kL, kTake, kNonce, kLast⟩ :=
    ackLayout (pk2id (C.publicKeyCreate eR)) nR (pk2id_pub_len C eR) hnR
  rw [← ackDataDef] at kL kTake kNonce kLast
  have hcommE : C.ecdhX (C.publicKeyCreate eR) eI = essR := by
    rw [essRdef]; exact C.ecdh_comm eR eI
  set stI2v : EciesState :=
    { privateKey := kI
      publicKey := C.publicKeyCreate kI
      remotePublicKey := some (C.publicKeyCreate kR)
      nonce := nI
      remoteNonce := some nR
      initMsg := some auth
      remoteInitMsg := none
      ingressAes := some aesF
      egressAes := some aesF
      ingressMac := some macEgR
      egressMac := some macInR
      ephemeralPrivateKey := eI
      ephemeralPublicKey := C.publicKeyCreate eI
      remoteEphemeralPublicKey := some (C.publicKeyCreate eR)
      ephemeralSharedSecret := some essR
      sharedSecret := some ss
      aesSecret := some as0
      macSecret := some ms
      bodySize := none } with stI2vdef
  have e4 : parseAck C stI1v ack = Except.ok stI2v := by
    rw [stI1vdef, stI2vdef, hI0]
    simp only [parseAck]
    rw [hdecK]
    simp only [bind, Except.bind]
    rw [kL, if_pos rfl, kTake, kNonce, kLast, if_pos rfl, id2pk_pk2id_pub C eR,
      hcommE]
    simp only [setupFrame]
    rfl
  have e1' : createAuth C (initiatorStart C kI kR nI eI) rA ivA =
      Except.ok (auth, stI1v) := by rw [stI1vdef]; exact e1
  refine ⟨auth, ack, stI1v, stI2v, stR1v, stR2v, e1', e2, e3, e4,
    rfl, by rw [stI2vdef]; simp, rfl, by rw [stI2vdef]; simp,
    rfl, by rw [stI2vdef]; simp, rfl, by rw [stI2vdef]; simp,
    rfl, rfl, rfl, rfl, ?_⟩
  intro d hd
  constructor
  · obtain ⟨h1, h2, h3, h4, h5, h6, p1, p2, p3, p4, -, -⟩ :=
      mirroredFrameStep C stI2v stR2v d aesF macInR (by rw [stI2vdef])
        (by rw [stI2vdef]) (by rw [stR2vdef]) (by rw [stR2vdef]) hd
    exact ⟨h1, h2, h3, h4, h5, h6, p1, p2, p3, p4⟩
  · obtain ⟨h1, h2, h3, h4, h5, h6, p1, p2, p3, p4, -, -⟩ :=
      mirroredFrameStep C stR2v stI2v d aesF macEgR (by rw [stR2vdef])
        (by rw [stR2vdef]) (by rw [stI2vdef]) (by rw [stI2vdef]) hd
    exact ⟨h1, h2, h3, h4, h5, h6, p1, p2, p3, p4⟩

/-- Witness for C1 at concrete keys and nonces. -/
theorem handshake_agreement_witness :
    ∃ auth ack stI1 stI2 stR1 stR2,
      createAuth toyCrypto (initiatorStart toyCrypto 1 2 (List.replicate 32 7) 3) 5
        (List.replicate 16 0) = Except.ok (auth, stI1) ∧
      parseAuth toyCrypto (responderStart toyCrypto 2 (List.replicate 32 8) 4) auth =
        Except.ok stR1 ∧
      createAck toyCrypto stR1 6 (List.replicate 16 1) = Except.ok (ack, stR2) ∧
      parseAck toyCrypto stI1 ack = Except.ok stI2 ∧
      stI2.aesSecret = stR2.aesSecret ∧ stI2.macSecret = stR2.macSecret := by
  obtain ⟨auth, ack, s1, s2, s3, s4, p1, p2, p3, p4, -, -, -, -, pa, -, pm, -, -,
      -, -, -, -⟩ :=
    handshake_agreement toyCrypto 1 2 3 4 5 6 (List.replicate 32 7)
      (List.replicate 32 8) (List.replicate 16 0) (List.replicate 16 1)
      (by simp) (by simp) (by simp) (by simp)
  exact ⟨auth, ack, s1, s2, s3, s4, p1, p2, p3, p4, pa, pm⟩

/-! ## C9: parseBody requires a fresh header -/

/-- C9: `parseBody` with `_bodySize === null` fails and leaves the state
alone; a successful `parseBody` clears `_bodySize`, so a second `parseBody`
without an intervening successful `parseHeader` always fails. -/
theorem parseBody_needs_header (C : Crypto) (st st' : EciesState)
    (d d2 : List Nat) :
    (st.bodySize = none →
      parseBody C st d = (Except.error "need to parse header first", st)) ∧
    (∀ r, parseBody C st d = (Except.ok r, st') →
      st'.bodySize = none ∧
      parseBody C st' d2 = (Except.error "need to parse header first", st')) := by
  constructor
  · intro h; simp [parseBody, h]
  · intro r h
    rw [parseBody] at h
    split at h
    · simp at h
    · split at h
      · rename_i aes mac ha hm
        by_cases hmac : macDigest C (macUpdateBody C mac (d.take (d.length - 16))) =
          d.drop (d.length - 16)
        · simp only [hmac, if_true, aesUpdate] at h
          rw [Prod.mk.injEq] at h
          obtain ⟨-, h2⟩ := h
          subst h2
          exact ⟨rfl, by simp [parseBody]⟩
        · simp only [hmac, if_false] at h
          simp at h
      · simp at h

/-- Witness for C9: on a state with no parsed header, `parseBody` fails. -/
theorem parseBody_needs_header_witness :
    parseBody toyCrypto blankEcies [1, 2, 3] =
      (Except.error "need to parse header first", blankEcies) :=
  (parseBody_needs_header toyCrypto blankEcies blankEcies [1, 2, 3] []).1 rfl

/-! ## C10: a MAC mismatch leaves the AES stream and body size untouched -/

/-- C10: when the 16-byte tag check fails, `parseHeader` and `parseBody`
throw with the ingress AES object and `_bodySize` exactly as before the call,
the ingress MAC alone having absorbed the offending ciphertext. -/
theorem parse_mac_fail_preserves (C : Crypto) (st : EciesState)
    (data : List Nat) (aes : Aes) (mac : Mac) (size : Nat) :
    (st.ingressAes = some aes → st.ingressMac = some mac →
      macDigest C (macUpdateHeader C mac (data.take 16)) ≠ slice data 16 32 →
      (parseHeader C st data).1 = Except.error "Invalid MAC" ∧
      (parseHeader C st data).2.ingressAes = st.ingressAes ∧
      (parseHeader C st data).2.bodySize = st.bodySize ∧
      (parseHeader C st data).2.ingressMac =
        some (macUpdateHeader C mac (data.take 16))) ∧
    (st.bodySize = some size → st.ingressAes = some aes → st.ingressMac = some mac →
      macDigest C (macUpdateBody C mac (data.take (data.length - 16))) ≠
        data.drop (data.length - 16) →
      (parseBody C st data).1 = Except.error "Invalid MAC" ∧
      (parseBody C st data).2.ingressAes = st.ingressAes ∧
      (parseBody C st data).2.bodySize = st.bodySize ∧
      (parseBody C st data).2.ingressMac =
        some (macUpdateBody C mac (data.take (data.length - 16)))) := by
  constructor
  · intro ha hm hne
    simp [parseHeader, ha, hm, hne]
  · intro hb ha hm hne
    simp [parseBody, hb, ha, hm, hne]

/-- Witness for C10 on a concrete state whose tag check fails. -/
theorem parse_mac_fail_preserves_witness :
    (parseHeader toyCrypto
        { blankEcies with
            ingressAes := some ⟨[1], [0], 0⟩, ingressMac := some ⟨[2], []⟩,
            bodySize := some 3 }
        (List.replicate 32 5)).1 = Except.error "Invalid MAC" ∧
    (parseHeader toyCrypto
        { blankEcies with
            ingressAes := some ⟨[1], [0], 0⟩, ingressMac := some ⟨[2], []⟩,
            bodySize := some 3 }
        (List.replicate 32 5)).2.ingressAes = some ⟨[1], [0], 0⟩ ∧
    (parseHeader toyCrypto
        { blankEcies with
            ingressAes := some ⟨[1], [0], 0⟩, ingressMac := some ⟨[2], []⟩,
            bodySize := some 3 }
        (List.replicate 32 5)).2.bodySize = some 3 := by
  have h := (parse_mac_fail_preserves toyCrypto
    { blankEcies with
        ingressAes := some ⟨[1], [0], 0⟩, ingressMac := some ⟨[2], []⟩,
        bodySize := some 3 }
    (List.replicate 32 5) ⟨[1], [0], 0⟩ ⟨[2], []⟩ 3).1 rfl rfl (by decide)
  exact ⟨h.1, h.2.1, h.2.2.1⟩

/-! ## C4: ping deduplication -/

/-- A cache hit returns the cached promise with the state untouched. -/
theorem srvPing_hit (E : Env) (st : ServerState) (now : Nat) (peer : SEndpoint)
    (peerId : Option (List Nat)) (pid : Nat) (halive : st.alive = true)
    (hhit : cacheGet st.cache peer.address peer.udpPort now = some pid) :
    srvPing E st now peer peerId = Except.ok (pid, st) := by
  simp [srvPing, halive, hhit]

/-- A freshly `set` cache entry is a hit while inside the TTL window. -/
theorem cacheGet_cacheSet_same (cache : List CacheEntry) (addr : String)
    (port : Option Nat) (pid t0 t : Nat) (h : t - t0 ≤ cacheMaxAge) :
    cacheGet (cacheSet cache ⟨addr, port, pid, t0⟩) addr port t = some pid := by
  have htake : ∀ l : List CacheEntry, ∀ e : CacheEntry,
      (e :: l).take cacheMax = e :: l.take 999 := by
    intro l e; rfl
  simp only [cacheSet, htake, cacheGet, List.find?]
  simp [h]

/-- Deduplicated pings return the shared promise and leave the state
untouched. -/
theorem pingN_stable (E : Env) (st : ServerState) (ts : List Nat)
    (peer : SEndpoint) (peerId : Option (List Nat)) (p0 : Nat)
    (halive : st.alive = true)
    (hhit : ∀ t ∈ ts, cacheGet st.cache peer.address peer.udpPort t = some p0) :
    pingN E st ts peer peerId = Except.ok (List.replicate ts.length p0, st) := by
  induction ts with
  | nil => rfl
  | cons t ts ih =>
    simp only [pingN]
    rw [srvPing_hit E st t peer peerId p0 halive (hhit t (by simp))]
    simp only [bind, Except.bind]
    rw [ih (fun u hu => hhit u (by simp [hu]))]
    simp [List.replicate_succ]

/-- C4: if the dedup cache still holds an entry for `"address:udpPort"`,
`ping` returns that cached future unchanged — no datagram is sent, no
pending-map entry is added, the state is exactly as before; consequently,
after one cache-missing ping that sends the single datagram, any number of
further pings within the 1 s TTL window all return the same promise and the
state (in particular the datagram log) never changes again. -/
theorem ping_dedup (E : Env) (st0 : ServerState) (now : Nat) (peer : SEndpoint)
    (peerId : Option (List Nat)) (pid : Nat) (halive : st0.alive = true) :
    (cacheGet st0.cache peer.address peer.udpPort now = some pid →
      srvPing E st0 now peer peerId = Except.ok (pid, st0)) ∧
    (∀ ts : List Nat, cacheGet st0.cache peer.address peer.udpPort now = none →
      (∀ t ∈ ts, t - now ≤ 1000) →
      ∃ p0 st1, srvPing E st0 now peer peerId = Except.ok (p0, st1) ∧
        st1.sent.length = st0.sent.length + 1 ∧
        pingN E st1 ts peer peerId = Except.ok (List.replicate ts.length p0, st1)) := by
  constructor
  · intro hhit
    exact srvPing_hit E st0 now peer peerId pid halive hhit
  · intro ts hmiss hts
    refine ⟨st0.nextPromiseId,
      { st0 with
          sent := st0.sent ++ [⟨"ping", peer.address, peer.udpPort⟩]
          promises := st0.promises ++ [(st0.nextPromiseId, PromState.pending)]
          nextPromiseId := st0.nextPromiseId + 1
          requests := ((E.encode "ping" peer).take 32,
              ⟨peer, peerId, st0.nextPromiseId⟩) ::
            st0.requests.filter (fun r => r.1 ≠ (E.encode "ping" peer).take 32)
          timers := st0.timers ++ [⟨now + st0.timeoutMs,
            TimerKind.pingTimeout ((E.encode "ping" peer).take 32)
              st0.nextPromiseId peer.address peer.udpPort⟩]
          cache := cacheSet st0.cache
            ⟨peer.address, peer.udpPort, st0.nextPromiseId, now⟩ }, ?_, ?_, ?_⟩
    · simp [srvPing, halive, hmiss, srvSend]
    · simp
    · apply pingN_stable
      · exact halive
      · intro t ht
        exact cacheGet_cacheSet_same _ _ _ _ _ _ (hts t ht)

/-- Witness for C4: a concrete cache hit returns the cached promise. -/
theorem ping_dedup_witness :
    srvPing toyEnv
      { mkServer with cache := [⟨"1.2.3.4", some 40404, 77, 0⟩] } 500
      ⟨"1.2.3.4", some 40404, some 30303⟩ none =
      Except.ok (77, { mkServer with cache := [⟨"1.2.3.4", some 40404, 77, 0⟩] }) :=
  (ping_dedup toyEnv
    { mkServer with cache := [⟨"1.2.3.4", some 40404, 77, 0⟩] } 500
    ⟨"1.2.3.4", some 40404, some 30303⟩ none 77 rfl).1 (by rfl)

/-! ## Promise helpers shared by the server claims -/

theorem resolveProm_mem (ps : List (Nat × PromState)) (pid : Nat) (id_ : List Nat)
    (a : String) (u t : Option Nat) (h : (pid, PromState.pending) ∈ ps) :
    (pid, PromState.resolved id_ a u t) ∈ resolveProm ps pid id_ a u t := by
  refine List.mem_map.mpr ⟨(pid, PromState.pending), h, ?_⟩
  simp

theorem rejectProm_mem (ps : List (Nat × PromState)) (pid : Nat) (err : String)
    (h : (pid, PromState.pending) ∈ ps) :
    (pid, PromState.rejected err) ∈ rejectProm ps pid err := by
  refine List.mem_map.mpr ⟨(pid, PromState.pending), h, ?_⟩
  simp

/-- Rejecting a promise after it has been resolved changes nothing. -/
theorem rejectProm_resolveProm (ps : List (Nat × PromState)) (pid : Nat)
    (id_ : List Nat) (a : String) (u t : Option Nat) (err : String)
    (hall : ∀ q ∈ ps, q.1 = pid → q.2 = PromState.pending) :
    rejectProm (resolveProm ps pid id_ a u t) pid err =
      resolveProm ps pid id_ a u t := by
  induction ps with
  | nil => rfl
  | cons q qs ih =>
    have hq := hall q (by simp)
    have hrest : ∀ r ∈ qs, r.1 = pid → r.2 = PromState.pending :=
      fun r hr => hall r (by simp [hr])
    by_cases hc : q.1 = pid ∧ q.2 = PromState.pending
    · simp only [resolveProm, rejectProm, List.map_cons, if_pos hc] at *
      simp [ih hrest, resolveProm, rejectProm]
    · have hc2 : ¬(q.1 = pid ∧ q.2 = PromState.pending) := hc
      simp only [resolveProm, rejectProm, List.map_cons, if_neg hc2] at *
      simp [ih hrest, resolveProm, rejectProm, hc2]

/-! ## C3: a matching pong resolves the pending ping -/

/-- C3 (amended): a pong whose echoed hash matches a pending request removes
the entry from the pending map and resolves the future with
`{id := recovered id, address/udpPort/tcpPort := stored peer}`; the timeout
timer is NOT cancelled — the timer list is untouched — but firing it later
no longer changes the settled future; a pong matching no pending request
changes nothing. -/
theorem pong_resolves (E : Env) (st : ServerState) (now : Nat)
    (pub mh h : List Nat) (toEp : SEndpoint) (addr : String) (port : Nat)
    (rq : List Nat × SrvReq) :
    (st.requests.find? (fun r => r.1 = h) = some rq →
      srvHandler E st now ⟨MsgData.pong toEp h, pub, mh⟩ addr port =
        { st with
            requests := st.requests.filter (fun q => q.1 ≠ h)
            promises := resolveProm st.promises rq.2.promiseId (pk2id pub)
              rq.2.peer.address rq.2.peer.udpPort rq.2.peer.tcpPort } ∧
      ((rq.2.promiseId, PromState.pending) ∈ st.promises →
        (rq.2.promiseId, PromState.resolved (pk2id pub) rq.2.peer.address
            rq.2.peer.udpPort rq.2.peer.tcpPort) ∈
          (srvHandler E st now ⟨MsgData.pong toEp h, pub, mh⟩ addr port).promises) ∧
      (srvHandler E st now ⟨MsgData.pong toEp h, pub, mh⟩ addr port).timers =
        st.timers ∧
      (∀ fa rkey a u, (∀ q ∈ st.promises, q.1 = rq.2.promiseId →
          q.2 = PromState.pending) →
        (fireTimer
            { (srvHandler E st now ⟨MsgData.pong toEp h, pub, mh⟩ addr port) with
                timers := [] }
            ⟨fa, TimerKind.pingTimeout rkey rq.2.promiseId a u⟩).promises =
          (srvHandler E st now ⟨MsgData.pong toEp h, pub, mh⟩ addr port).promises)) ∧
    (st.requests.find? (fun r => r.1 = h) = none →
      srvHandler E st now ⟨MsgData.pong toEp h, pub, mh⟩ addr port = st) := by
  constructor
  · intro hfind
    have hh : srvHandler E st now ⟨MsgData.pong toEp h, pub, mh⟩ addr port =
        { st with
            requests := st.requests.filter (fun q => q.1 ≠ h)
            promises := resolveProm st.promises rq.2.promiseId (pk2id pub)
              rq.2.peer.address rq.2.peer.udpPort rq.2.peer.tcpPort } := by
      simp [srvHandler, hfind]
    refine ⟨hh, ?_, ?_, ?_⟩
    · intro hmem
      rw [hh]
      exact resolveProm_mem _ _ _ _ _ _ hmem
    · rw [hh]
    · intro fa rkey a u hall
      rw [hh]
      simp only [fireTimer]
      exact rejectProm_resolveProm _ _ _ _ _ _ _ hall
  · intro hfind
    simp [srvHandler, hfind]

/-- Counterexample for C3 as stated: after a concrete ping/pong exchange the
request is removed and the future resolved, yet the 10 s timeout timer is
still armed (the source never calls `clearTimeout`). -/
theorem pong_timeout_not_cancelled_cex :
    (srvPing toyEnv mkServer 0 ⟨"1.2.3.4", some 40404, some 30303⟩ none).map
      (fun r =>
        ((srvHandler toyEnv r.2 5
            ⟨MsgData.pong ⟨"1.2.3.4", some 40404, none⟩ (List.replicate 32 9),
              4 :: List.replicate 64 6, List.replicate 32 9⟩ "1.2.3.4" 40404).requests,
         (srvHandler toyEnv r.2 5
            ⟨MsgData.pong ⟨"1.2.3.4", some 40404, none⟩ (List.replicate 32 9),
              4 :: List.replicate 64 6, List.replicate 32 9⟩ "1.2.3.4" 40404).promises,
         (srvHandler toyEnv r.2 5
            ⟨MsgData.pong ⟨"1.2.3.4", some 40404, none⟩ (List.replicate 32 9),
              4 :: List.replicate 64 6, List.replicate 32 9⟩ "1.2.3.4" 40404).timers)) =
      Except.ok ([],
        [(0, PromState.resolved (List.replicate 64 6) "1.2.3.4" (some 40404)
          (some 30303))],
        [⟨10000, TimerKind.pingTimeout (List.replicate 32 9) 0 "1.2.3.4"
          (some 40404)⟩]) := by
  rfl

/-- Witness for C3 (amended) on a concrete matched pong. -/
theorem pong_resolves_witness :
    (srvHandler toyEnv
        { mkServer with
            requests := [(List.replicate 32 9,
              ⟨⟨"1.2.3.4", some 40404, some 30303⟩, none, 0⟩)]
            promises := [(0, PromState.pending)]
            timers := [⟨10000, TimerKind.pingTimeout (List.replicate 32 9) 0
              "1.2.3.4" (some 40404)⟩] }
        5 ⟨MsgData.pong ⟨"1.2.3.4", some 40404, none⟩ (List.replicate 32 9),
          4 :: List.replicate 64 6, List.replicate 32 9⟩ "1.2.3.4" 40404).timers =
      [⟨10000, TimerKind.pingTimeout (List.replicate 32 9) 0 "1.2.3.4"
        (some 40404)⟩] := by
  have hw := (pong_resolves toyEnv
    { mkServer with
        requests := [(List.replicate 32 9,
          ⟨⟨"1.2.3.4", some 40404, some 30303⟩, none, 0⟩)]
        promises := [(0, PromState.pending)]
        timers := [⟨10000, TimerKind.pingTimeout (List.replicate 32 9) 0
          "1.2.3.4" (some 40404)⟩] }
    5 (4 :: List.replicate 64 6) (List.replicate 32 9) (List.replicate 32 9)
    ⟨"1.2.3.4", some 40404, none⟩ "1.2.3.4" 40404
    (List.replicate 32 9, ⟨⟨"1.2.3.4", some 40404, some 30303⟩, none, 0⟩)).1
    (by rfl)
  rw [hw.2.2.1]

/-! ## C7: destroy and the outstanding ping timers -/

/-- C7 (amended): `destroy` only closes and nulls the socket; pending
requests, promises and the armed ping-timeout timers are all left in place,
and when such a timer later fires it rejects the still-pending future with
the timeout error (the future is not leaked forever). -/
theorem destroy_leaves_timers (st : ServerState) (fa pid : Nat)
    (rkey : List Nat) (a : String) (u : Option Nat)
    (halive : st.alive = true) :
    srvDestroy st = Except.ok { st with alive := false } ∧
    ({ st with alive := false } : ServerState).timers = st.timers ∧
    ({ st with alive := false } : ServerState).requests = st.requests ∧
    ({ st with alive := false } : ServerState).promises = st.promises ∧
    ((pid, PromState.pending) ∈ st.promises →
      (pid, PromState.rejected
          ("Timeout error: ping " ++ a ++ ":" ++ showPort u)) ∈
        (fireTimer { st with alive := false }
          ⟨fa, TimerKind.pingTimeout rkey pid a u⟩).promises) := by
  refine ⟨by simp [srvDestroy, halive], rfl, rfl, rfl, ?_⟩
  intro hmem
  simp only [fireTimer]
  exact rejectProm_mem _ _ _ hmem

/-- Counterexample for C7 as stated: a concrete ping future outstanding at
`destroy` IS rejected afterwards, when its timeout timer fires. -/
theorem destroy_rejects_later_cex :
    (srvPing toyEnv mkServer 0 ⟨"1.2.3.4", some 40404, some 30303⟩ none).map
      (fun r =>
        match srvDestroy r.2 with
        | Except.ok stD =>
          (fireTimer stD ⟨10000, TimerKind.pingTimeout (List.replicate 32 9) 0
            "1.2.3.4" (some 40404)⟩).promises
        | Except.error _ => []) =
      Except.ok [(0, PromState.rejected "Timeout error: ping 1.2.3.4:40404")] := by
  rfl

/-- Witness for C7 (amended) on a concrete destroyed server. -/
theorem destroy_leaves_timers_witness :
    (0, PromState.rejected "Timeout error: ping 1.2.3.4:40404") ∈
      (fireTimer { ({ mkServer with promises := [(0, PromState.pending)] } :
            ServerState) with alive := false }
        ⟨10000, TimerKind.pingTimeout (List.replicate 32 9) 0 "1.2.3.4"
          (some 40404)⟩).promises :=
  (destroy_leaves_timers
    { mkServer with promises := [(0, PromState.pending)] }
    10000 0 (List.replicate 32 9) "1.2.3.4" (some 40404) rfl).2.2.2.2
    (by simp)

/-! ## C8: delayed peers event for an unknown ping sender -/

/-- C8: a ping from a sender the routing table does not know, carrying a
non-null `from.udpPort`, schedules exactly one `peers` event `[from]` for
100 ms later and emits nothing immediately; firing that timer emits the
event.  A known sender or a null `from.udpPort` schedules no such event. -/
theorem ping_unknown_emits (E : Env) (st : ServerState) (now v : Nat)
    (pub mh : List Nat) (from_ toEp : SEndpoint) (addr : String) (port : Nat) :
    (E.getPeer (pk2id pub) = none → from_.udpPort ≠ none →
      (srvHandler E st now ⟨MsgData.ping v from_ toEp, pub, mh⟩ addr port).timers =
        st.timers ++ [⟨now + 100, TimerKind.emitPeers [from_]⟩] ∧
      (srvHandler E st now ⟨MsgData.ping v from_ toEp, pub, mh⟩ addr port).events =
        st.events ∧
      (fireTimer
          (srvHandler E st now ⟨MsgData.ping v from_ toEp, pub, mh⟩ addr port)
          ⟨now + 100, TimerKind.emitPeers [from_]⟩).events =
        st.events ++ [SEvent.peers [from_]]) ∧
    (¬(E.getPeer (pk2id pub) = none ∧ from_.udpPort ≠ none) →
      (srvHandler E st now ⟨MsgData.ping v from_ toEp, pub, mh⟩ addr port).timers =
        st.timers ∧
      (srvHandler E st now ⟨MsgData.ping v from_ toEp, pub, mh⟩ addr port).events =
        st.events) := by
  constructor
  · intro hg hu
    have hcond : E.getPeer (pk2id pub) = none ∧ from_.udpPort ≠ none := ⟨hg, hu⟩
    simp [srvHandler, hcond, srvSend, fireTimer]
  · intro hncond
    simp [srvHandler, hncond, srvSend]

/-- Witness for C8: a concrete unknown sender schedules the delayed event. -/
theorem ping_unknown_emits_witness :
    (srvHandler toyEnv mkServer 50
        ⟨MsgData.ping 4 ⟨"9.9.9.9", some 1, none⟩ ⟨"8.8.8.8", some 2, none⟩,
          4 :: List.replicate 64 6, List.replicate 32 9⟩ "7.7.7.7" 30303).timers =
      [⟨150, TimerKind.emitPeers [⟨"9.9.9.9", some 1, none⟩]⟩] := by
  have hw := (ping_unknown_emits toyEnv mkServer 50 4 (4 :: List.replicate 64 6)
    (List.replicate 32 9) ⟨"9.9.9.9", some 1, none⟩ ⟨"8.8.8.8", some 2, none⟩
    "7.7.7.7" 30303).1 rfl (by simp)
  rw [hw.1]
  rfl

end Devp2p
